import Mathlib

/-!
Verification development for the AI Tycoon prototype (`ai_tycoon.cpp`).

The C++ program is a single-file console game: an online linear demand
model ("AI advisor"), a grid-search plan optimizer, a hidden stochastic
market, a categorical market-event draw, and a public sales proxy.

Modelling conventions of this shallow embedding:
- C++ `double` values are modelled as real numbers (`ℝ`); `int` as `ℤ`.
- Draws from the global `mt19937_64` stream are modelled as explicit
  arguments (a uniform value `r` for `drawEvent`, a Gaussian `noise`
  value for `realizeDemand` and the proxy update).
- Mutation is modelled by returning the updated state (`learn` returns
  the new weight vector, `realizeDemand` takes its noise draw).
- `log1p x` is `Real.log (1 + x)`; `(int)floor(x + 0.5)` is `⌊x + 0.5⌋`.
-/

namespace AITycoon

noncomputable section

/-- Plan struct (source lines 15-19): price, ad spend, production. -/
structure Plan where
  price : ℝ
  adSpend : ℝ
  production : ℤ

/-- MarketEvent struct (source lines 41-46). -/
structure MarketEvent where
  name : String
  baseShock : ℝ
  adShock : ℝ
  priceShock : ℝ

/-- `clampv` (source line 38): `max(lo, min(hi, v))`. -/
def clampv (v lo hi : ℝ) : ℝ := max lo (min hi v)

/-- `drawEvent` (source lines 48-56).  The uniform draw `u(rng)` in `[0,1)`
is the explicit argument `r`; the `week` argument is unused, as in the
source. -/
def drawEvent (week : ℤ) (r : ℝ) : MarketEvent :=
  if r < 0.10 then ⟨"Viral Trend", 20.0, 0.50, -0.10⟩
  else if r < 0.20 then ⟨"New Competitor", -15.0, -0.10, 0.25⟩
  else if r < 0.30 then ⟨"Supply News (positive)", 5.0, 0.05, -0.05⟩
  else if r < 0.40 then ⟨"Macro Slump", -10.0, -0.10, 0.15⟩
  else ⟨"Nothing Special", 0.0, 0.0, 0.0⟩

/-- Company struct (source lines 59-70); the sales history is carried
separately where needed. -/
structure Company where
  name : String := "YouCo"
  inventory : ℤ := 40
  cash : ℝ := 20000.0
  unitCost : ℝ := 8.0
  fixedCost : ℝ := 1200.0

/-- The advisor weight state (source lines 150-151). -/
structure Weights where
  w0 : ℝ
  wP : ℝ
  wA : ℝ
  wB : ℝ
  wI : ℝ
  lr : ℝ

/-- The `AIAdvisor` constructor priors (source lines 77-85). -/
def priorWeights : Weights :=
  { w0 := 40.0, wP := 1.0, wA := 8.0, wB := 0.5, wI := 0.1, lr := 0.0015 }

namespace AIAdvisor

/-- `AIAdvisor::predict` (source lines 153-163). -/
def predict (w : Weights) (price ad baseProxy : ℝ) (inventoryAvail : ℤ)
    (eventAdMult eventPriceMult : ℝ) : ℝ :=
  let x0 : ℝ := 1.0
  let xP : ℝ := - price * (1.0 + eventPriceMult)
  let xA : ℝ := Real.log (1 + ad) * (1.0 + eventAdMult)
  let xB : ℝ := baseProxy
  let xI : ℝ := (inventoryAvail : ℝ)
  max 0.0 (w.w0 * x0 + w.wP * xP + w.wA * xA + w.wB * xB + w.wI * xI)

/-- `AIAdvisor::learn` (source lines 113-139): SGD step followed by the
per-weight clamps; returns the updated weight state. -/
def learn (w : Weights) (price ad baseProxy : ℝ) (inventoryAvail : ℤ)
    (sold : ℤ) (eventAdMult eventPriceMult : ℝ) : Weights :=
  let x0 : ℝ := 1.0
  let xP : ℝ := - price * (1.0 + eventPriceMult)
  let xA : ℝ := Real.log (1 + ad) * (1.0 + eventAdMult)
  let xB : ℝ := baseProxy
  let xI : ℝ := (inventoryAvail : ℝ)
  let yhat := w.w0 * x0 + w.wP * xP + w.wA * xA + w.wB * xB + w.wI * xI
  let err := (sold : ℝ) - yhat
  { w with
    w0 := clampv (w.w0 + w.lr * err * x0) (-200.0) 300.0
    wP := clampv (w.wP + w.lr * err * xP) (-10.0) 10.0
    wA := clampv (w.wA + w.lr * err * xA) (-40.0) 40.0
    wB := clampv (w.wB + w.lr * err * xB) (-5.0) 5.0
    wI := clampv (w.wI + w.lr * err * xI) (-0.5) 0.5 }

/-- The price grid of `suggest` (source line 94): 9.0, 10.0, ..., 40.0. -/
def gridPrices : List ℝ := (List.range 32).map (fun i : ℕ => 9.0 + (i : ℝ))

/-- The ad-spend grid of `suggest` (source line 95): 0, 500, ..., 8000. -/
def gridAds : List ℝ := (List.range 17).map (fun i : ℕ => 500.0 * (i : ℝ))

/-- The production grid of `suggest` (source line 96): 0, 10, ..., 120. -/
def gridProds : List ℤ := (List.range 13).map (fun i : ℕ => 10 * (i : ℤ))

/-- The grid points of `suggest` in loop-enumeration order: price
ascending, then ad spend ascending, then production ascending. -/
def gridPlans : List Plan :=
  gridPrices.flatMap fun price =>
    gridAds.flatMap fun ad =>
      gridProds.map fun prod => ⟨price, ad, prod⟩

/-- The loop body of `suggest` (source lines 97-101): predicted demand,
sellable units (`(int)round` on a non-negative value is `⌊· + 0.5⌋`),
revenue, cost, profit of one grid point. -/
def planProfit (w : Weights) (c : Company) (baseProxy eventAdMult eventPriceMult : ℝ)
    (p : Plan) : ℝ :=
  let demandHat := predict w p.price p.adSpend baseProxy (c.inventory + p.production)
    eventAdMult eventPriceMult
  let canSell : ℤ := min ⌊demandHat + 0.5⌋ (c.inventory + p.production)
  let revenue := (canSell : ℝ) * p.price
  let cost := (p.production : ℝ) * c.unitCost + p.adSpend + c.fixedCost
  revenue - cost

/-- The best-so-far accumulator update of `suggest` (source lines 102-105):
a grid point replaces the incumbent only on strictly greater profit. -/
def bestStep (w : Weights) (c : Company) (baseProxy eventAdMult eventPriceMult : ℝ)
    (acc : Plan × ℝ) (p : Plan) : Plan × ℝ :=
  if planProfit w c baseProxy eventAdMult eventPriceMult p > acc.2
  then (p, planProfit w c baseProxy eventAdMult eventPriceMult p)
  else acc

/-- `AIAdvisor::suggest` (source lines 88-110): fold of the loop body over
the grid, started from `best = {20, 1000, 50}`, `bestProfit = -1e18`. -/
def suggest (w : Weights) (c : Company) (baseProxy eventAdMult eventPriceMult : ℝ) :
    Plan :=
  (gridPlans.foldl (bestStep w c baseProxy eventAdMult eventPriceMult)
    (⟨20, 1000, 50⟩, -1e18)).1

end AIAdvisor

/-- Market struct constants (source lines 167-173). -/
structure Market where
  baseDemand : ℝ := 60.0
  priceSensitivity : ℝ := 1.4
  adEffect : ℝ := 9.0
  demandDrift : ℝ := 0.2
  noiseStd : ℝ := 6.0

/-- `Market::realizeDemand` (source lines 182-195); the Gaussian draw
`n(rng)` is the explicit argument `noise`. -/
def Market.realizeDemand (m : Market) (price adSpend : ℝ) (ev : MarketEvent)
    (inventoryAvail : ℤ) (noise : ℝ) : ℤ :=
  let priceMult := 1.0 + ev.priceShock
  let adMult := 1.0 + ev.adShock
  let mu := m.baseDemand + ev.baseShock
      - m.priceSensitivity * price * priceMult
      + m.adEffect * Real.log (1 + adSpend) * adMult
      + 0.08 * (inventoryAvail : ℝ)
  let demand := max 0.0 (mu + noise)
  ⌊demand + 0.5⌋

/-- The proxy update of the main loop (source lines 285-291): mean of the
sold counts from index `max 0 (size-3)` to the end of the history, blended
`0.7/0.3` with the current proxy, plus one Gaussian noise draw, floored at
zero.  `soldHistory` is the list of `sold` fields of `co.history`. -/
def proxyUpdate (soldHistory : List ℤ) (baseProxy noise : ℝ) : ℝ :=
  let start := soldHistory.length - 3
  let avgSales : ℝ :=
    ((soldHistory.drop start).map fun z => (z : ℝ)).sum
      / ((soldHistory.length - start : ℕ) : ℝ)
  max 0.0 (0.70 * baseProxy + 0.30 * avgSales + noise)

/-- One `learn` call with its full argument vector, for reasoning about
sequences of calls. -/
structure LearnCall where
  price : ℝ
  adSpend : ℝ
  baseProxy : ℝ
  inventoryAvail : ℤ
  sold : ℤ
  eventAdMult : ℝ
  eventPriceMult : ℝ

/-- Apply one recorded `learn` call to a weight state. -/
def applyLearn (w : Weights) (a : LearnCall) : Weights :=
  AIAdvisor.learn w a.price a.adSpend a.baseProxy a.inventoryAvail a.sold
    a.eventAdMult a.eventPriceMult

/-- Apply a sequence of `learn` calls in order. -/
def applyLearns (w : Weights) (l : List LearnCall) : Weights :=
  l.foldl applyLearn w

/-- The documented clamp ranges of the five weights (source lines 134-138). -/
def weightsInBounds (w : Weights) : Prop :=
  -200 ≤ w.w0 ∧ w.w0 ≤ 300 ∧ -10 ≤ w.wP ∧ w.wP ≤ 10 ∧ -40 ≤ w.wA ∧ w.wA ≤ 40 ∧
    -5 ≤ w.wB ∧ w.wB ≤ 5 ∧ -0.5 ≤ w.wI ∧ w.wI ≤ 0.5

/-- The sales/learn portion of one main-loop iteration (source lines
250-281): production is added to inventory, demand is realized on the
post-production availability, sales are capped by that availability,
inventory is decremented, and `learn` is called with
`co.inventory + sold` as its `inventoryAvail` argument.  The record keeps
the two availability arguments so they can be compared. -/
structure WeekOutcome where
  realizeInvArg : ℤ
  soldUnits : ℤ
  inventoryEnd : ℤ
  learnInvArg : ℤ
  newWeights : Weights

/-- One iteration of the main loop on an already-finalized plan
(source lines 250-281), with the demand noise draw explicit. -/
def weekStep (c : Company) (w : Weights) (m : Market) (chosen : Plan)
    (ev : MarketEvent) (baseProxy demandNoise : ℝ) : WeekOutcome :=
  let inv1 := c.inventory + chosen.production
  let potential := m.realizeDemand chosen.price chosen.adSpend ev inv1 demandNoise
  let sold := min potential inv1
  let inv2 := inv1 - sold
  { realizeInvArg := inv1
    soldUnits := sold
    inventoryEnd := inv2
    learnInvArg := inv2 + sold
    newWeights := AIAdvisor.learn w chosen.price chosen.adSpend baseProxy
      (inv2 + sold) sold ev.adShock ev.priceShock }

/-- Following the words of the spec scenario: the advisor prediction with
the `(1+shock)` multipliers omitted entirely. -/
def predictShockFree (w : Weights) (price ad baseProxy : ℝ) (inventoryAvail : ℤ) : ℝ :=
  max 0.0 (w.w0 * 1.0 + w.wP * (- price) + w.wA * Real.log (1 + ad) +
    w.wB * baseProxy + w.wI * (inventoryAvail : ℝ))

/-- Following the words of the spec scenario: realized demand with the
shock terms omitted entirely (same noise draw). -/
def realizeDemandShockFree (m : Market) (price adSpend : ℝ) (inventoryAvail : ℤ)
    (noise : ℝ) : ℤ :=
  let mu := m.baseDemand
      - m.priceSensitivity * price
      + m.adEffect * Real.log (1 + adSpend)
      + 0.08 * (inventoryAvail : ℝ)
  let demand := max 0.0 (mu + noise)
  ⌊demand + 0.5⌋

/-- An all-zero weight vector (learning rate as in the priors), used as a
concrete advisor state in witnesses. -/
def zeroWeights : Weights :=
  { w0 := 0, wP := 0, wA := 0, wB := 0, wI := 0, lr := 0.0015 }

/-- The starting company state of `main` (source lines 59-66, 210). -/
def baseCompany : Company := {}

end

/-! ### Numeric bounds on `log 1001`

The spec scenario for `predict` evaluates the model at `adSpend = 1000`,
so the value `Real.log 1001` must be bracketed numerically. -/

/-- Elementary bound `exp (1/32) ≤ 32/31`, from `x + 1 ≤ exp x` at `-1/32`. -/
lemma exp_one_div_thirtytwo_le : Real.exp (1/32 : ℝ) ≤ 32/31 := by
  have hx : 0 < Real.exp (1/32 : ℝ) := Real.exp_pos _
  have h1 : (31/32 : ℝ) ≤ (Real.exp (1/32 : ℝ))⁻¹ := by
    have h := Real.add_one_le_exp (-(1/32) : ℝ)
    rw [Real.exp_neg] at h
    linarith
  have h2 : Real.exp (1/32 : ℝ) * (31/32) ≤ 1 := by
    have h3 := mul_le_mul_of_nonneg_left h1 hx.le
    rwa [mul_inv_cancel₀ hx.ne'] at h3
  linarith

/-- Lower bound: `6.75 < log 1001`, via `exp 6.75 ≤ (32/31)^216 < 1001`. -/
lemma log_1001_gt : (6.75 : ℝ) < Real.log 1001 := by
  rw [Real.lt_log_iff_exp_lt (by norm_num : (0:ℝ) < 1001)]
  have h216 : Real.exp (6.75 : ℝ) = Real.exp (1/32 : ℝ) ^ (216 : ℕ) := by
    rw [← Real.exp_nat_mul]
    norm_num
  rw [h216]
  calc Real.exp (1/32 : ℝ) ^ (216 : ℕ)
      ≤ ((32:ℝ)/31) ^ (216 : ℕ) :=
        pow_le_pow_left₀ (Real.exp_pos _).le exp_one_div_thirtytwo_le 216
    _ < 1001 := by norm_num

/-- Upper bound: `log 1001 < 6.94`, via `log 1001 < log 1024 = 10 log 2`. -/
lemma log_1001_lt : Real.log 1001 < 6.94 := by
  have h1 : Real.log 1001 < Real.log 1024 :=
    Real.log_lt_log (by norm_num) (by norm_num)
  have h2 : Real.log (1024 : ℝ) = ((10 : ℕ) : ℝ) * Real.log 2 := by
    rw [show (1024:ℝ) = 2 ^ (10:ℕ) by norm_num, Real.log_pow]
  have h3 := Real.log_two_lt_d9
  rw [h2] at h1
  push_cast at h1
  linarith

/-! ### C1: the `predict` scenario -/

/-- The scenario prediction in closed form: with the prior weights and
neutral event multipliers, the linear score is `51 + 8 log 1001`, which is
positive, so the floor at zero does not bite. -/
lemma predict_scenario_eq :
    AIAdvisor.predict priorWeights 20 1000 50 60 0 0 = 51 + 8 * Real.log 1001 := by
  have h1 := log_1001_gt
  simp only [AIAdvisor.predict, priorWeights]
  rw [show ((1:ℝ) + 1000) = 1001 by norm_num]
  rw [max_eq_right (by push_cast; linarith)]
  push_cast
  ring

/-- C1, counterexample: the scenario prediction is not within any floating
tolerance of 100.4 — it differs from 100.4 by more than 1 (in fact it
exceeds 105, since `8·log 1001 > 54`). -/
theorem predict_scenario_not_near_100_4 :
    1 < |AIAdvisor.predict priorWeights 20 1000 50 60 0 0 - 100.4| := by
  rw [predict_scenario_eq]
  have h := log_1001_gt
  have habs := le_abs_self (51 + 8 * Real.log 1001 - 100.4)
  linarith

/-- C1, amended: with the prior weights,
`predict(price=20, adSpend=1000, baseProxy=50, inventoryAvailable=60,
eventAdMult=0, eventPriceMult=0)` equals
`max(0, 40 + 1·(−20) + 8·ln(1001) + 0.5·50 + 0.1·60)` exactly, and that
value lies strictly between 105 and 107 (it is ≈ 106.27, not ≈ 100.4). -/
theorem predict_scenario_value :
    AIAdvisor.predict priorWeights 20 1000 50 60 0 0
        = max 0 (40 + 1 * (-(20:ℝ)) + 8 * Real.log 1001 + 0.5 * 50 + 0.1 * 60) ∧
      105 < AIAdvisor.predict priorWeights 20 1000 50 60 0 0 ∧
      AIAdvisor.predict priorWeights 20 1000 50 60 0 0 < 107 := by
  have h1 := log_1001_gt
  have h2 := log_1001_lt
  have he := predict_scenario_eq
  refine ⟨?_, ?_, ?_⟩
  · rw [he, max_eq_right (by linarith)]
    ring
  · rw [he]; linarith
  · rw [he]; linarith

/-! ### C2: the `learn` scenario -/

/-- The `w0` component after the scenario `learn` call, in closed form:
the update lands inside the clamp range, so the clamp is the identity. -/
lemma learn_scenario_w0_eq :
    (AIAdvisor.learn priorWeights 20 1000 50 60 80 0 0).w0
      = 40 + 0.0015 * (80 - (51 + 8 * Real.log 1001)) := by
  have h1 := log_1001_gt
  have h2 := log_1001_lt
  simp only [AIAdvisor.learn, priorWeights, clampv]
  rw [show ((1:ℝ) + 1000) = 1001 by norm_num]
  rw [min_eq_right (by push_cast; linarith), max_eq_right (by push_cast; linarith)]
  push_cast
  ring

/-- C2, counterexample: the scenario `learn` call moves `w0` downward, not
upward — the error `soldUnits − yhat` is negative, because
`yhat = 51 + 8·log 1001 ≈ 106.27` exceeds `soldUnits = 80`. -/
theorem learn_scenario_w0_decreases :
    (AIAdvisor.learn priorWeights 20 1000 50 60 80 0 0).w0 < priorWeights.w0 := by
  rw [learn_scenario_w0_eq]
  have h := log_1001_gt
  simp only [priorWeights]
  linarith

/-- C2, amended: starting from the prior weights, the single call
`learn(price=20, adSpend=1000, baseProxy=50, inventoryAvailable=60,
soldUnits=80, eventAdMult=0, eventPriceMult=0)` changes `w0` by exactly
`learningRate · error · 1` (the clamp is inactive), but the error
`80 − (40 + 1·(−20) + 8·ln(1001) + 0.5·50 + 0.1·60)` is negative, so `w0`
moves downward. -/
theorem learn_scenario_w0_change :
    (AIAdvisor.learn priorWeights 20 1000 50 60 80 0 0).w0
        = priorWeights.w0 + priorWeights.lr
            * (80 - (40 + 1 * (-(20:ℝ)) + 8 * Real.log 1001 + 0.5 * 50 + 0.1 * 60)) * 1 ∧
      (80:ℝ) - (40 + 1 * (-(20:ℝ)) + 8 * Real.log 1001 + 0.5 * 50 + 0.1 * 60) < 0 ∧
      (AIAdvisor.learn priorWeights 20 1000 50 60 80 0 0).w0 < priorWeights.w0 := by
  have h1 := log_1001_gt
  have h2 := log_1001_lt
  refine ⟨?_, by linarith, ?_⟩
  · rw [learn_scenario_w0_eq]
    simp only [priorWeights]
    ring
  · rw [learn_scenario_w0_eq]
    simp only [priorWeights]
    linarith

/-! ### C3: the weight clamps -/

/-- The clamp output is below any bound dominating both clamp limits. -/
lemma clampv_le (v lo hi b : ℝ) (h1 : lo ≤ b) (h2 : hi ≤ b) : clampv v lo hi ≤ b :=
  max_le h1 (le_trans (min_le_left _ _) h2)

/-- The clamp output is above any bound below the lower clamp limit. -/
lemma le_clampv (v lo hi b : ℝ) (h : b ≤ lo) : b ≤ clampv v lo hi :=
  le_trans h (le_max_left _ _)

/-- A single `learn` call always lands inside the documented clamp ranges,
whatever the incoming weights and arguments are. -/
lemma applyLearn_inBounds (w : Weights) (a : LearnCall) :
    weightsInBounds (applyLearn w a) := by
  simp only [applyLearn, AIAdvisor.learn, weightsInBounds]
  exact ⟨le_clampv _ _ _ _ (by norm_num), clampv_le _ _ _ _ (by norm_num) (by norm_num),
    le_clampv _ _ _ _ (by norm_num), clampv_le _ _ _ _ (by norm_num) (by norm_num),
    le_clampv _ _ _ _ (by norm_num), clampv_le _ _ _ _ (by norm_num) (by norm_num),
    le_clampv _ _ _ _ (by norm_num), clampv_le _ _ _ _ (by norm_num) (by norm_num),
    le_clampv _ _ _ _ (by norm_num), clampv_le _ _ _ _ (by norm_num) (by norm_num)⟩

/-- C3: for every sequence of `learn` calls with arbitrary arguments, the
weight state after each call (the fold over any prefix ending in a call)
lies within the documented clamp ranges:
`w0 ∈ [−200,300]`, `wP ∈ [−10,10]`, `wA ∈ [−40,40]`, `wB ∈ [−5,5]`,
`wI ∈ [−0.5,0.5]`. -/
theorem learn_weights_clamped (w : Weights) (l : List LearnCall) (a : LearnCall) :
    weightsInBounds (applyLearns w (l ++ [a])) := by
  have h : applyLearns w (l ++ [a]) = applyLearn (applyLearns w l) a := by
    simp [applyLearns, List.foldl_append]
  rw [h]
  exact applyLearn_inBounds _ _

/-! ### C4: realized demand is a non-negative integer and sales are capped -/

/-- C4: for every inventory `I ≥ 0`, production `P ≥ 0`, price, ad spend,
event and noise draw, `realizeDemand` returns a non-negative integer, and
`sold = min(realizeDemand output, I+P) ≤ I+P`. -/
theorem realizeDemand_nonneg_sold_le (m : Market) (price adSpend : ℝ)
    (ev : MarketEvent) (I P : ℤ) (noise : ℝ) (hI : 0 ≤ I) (hP : 0 ≤ P) :
    0 ≤ m.realizeDemand price adSpend ev (I + P) noise ∧
      min (m.realizeDemand price adSpend ev (I + P) noise) (I + P) ≤ I + P := by
  constructor
  · simp only [Market.realizeDemand]
    rw [Int.le_floor]
    push_cast
    have h : ∀ y : ℝ, (0:ℝ) ≤ max 0.0 y + 0.5 := fun y => by
      have hy := le_max_left (0.0:ℝ) y
      linarith
    exact h _
  · exact min_le_right _ _

/-- C4 witness at a concrete state: the starting inventory 40, a
production of 10, the scenario action and a zero noise draw. -/
theorem realizeDemand_nonneg_sold_le_witness :
    (0:ℤ) ≤ 40 ∧ (0:ℤ) ≤ 10 ∧
      (0 ≤ Market.realizeDemand {} 20 1000 ⟨"Nothing Special", 0.0, 0.0, 0.0⟩
          ((40:ℤ) + 10) 0 ∧
        min (Market.realizeDemand {} 20 1000 ⟨"Nothing Special", 0.0, 0.0, 0.0⟩
          ((40:ℤ) + 10) 0) ((40:ℤ) + 10) ≤ (40:ℤ) + 10) :=
  ⟨by norm_num, by norm_num,
    realizeDemand_nonneg_sold_le {} 20 1000 ⟨"Nothing Special", 0.0, 0.0, 0.0⟩
      40 10 0 (by norm_num) (by norm_num)⟩

/-! ### C7: the event draw partition -/

/-- C7: for every `r ∈ [0,1)`, `drawEvent` returns exactly one of the five
events, characterized by the cumulative thresholds 0.10, 0.20, 0.30, 0.40
(mass 10%, 10%, 10%, 10%, 60%): each of the five events is returned
precisely on its own threshold interval, so the intervals partition `[0,1)`
and the returned event is unique — never none. -/
theorem drawEvent_partition (week : ℤ) (r : ℝ) (h0 : 0 ≤ r) (h1 : r < 1) :
    (drawEvent week r = ⟨"Viral Trend", 20.0, 0.50, -0.10⟩ ↔ r < 0.10) ∧
      (drawEvent week r = ⟨"New Competitor", -15.0, -0.10, 0.25⟩ ↔ 0.10 ≤ r ∧ r < 0.20) ∧
      (drawEvent week r = ⟨"Supply News (positive)", 5.0, 0.05, -0.05⟩ ↔ 0.20 ≤ r ∧ r < 0.30) ∧
      (drawEvent week r = ⟨"Macro Slump", -10.0, -0.10, 0.15⟩ ↔ 0.30 ≤ r ∧ r < 0.40) ∧
      (drawEvent week r = ⟨"Nothing Special", 0.0, 0.0, 0.0⟩ ↔ 0.40 ≤ r) := by
  rcases lt_or_le r 0.10 with c1 | c1
  · have e : drawEvent week r = ⟨"Viral Trend", 20.0, 0.50, -0.10⟩ := by
      simp [drawEvent, c1]
    exact ⟨iff_of_true e c1,
      iff_of_false (by rw [e]; norm_num [MarketEvent.mk.injEq])
        (by rintro ⟨h, -⟩; linarith),
      iff_of_false (by rw [e]; norm_num [MarketEvent.mk.injEq])
        (by rintro ⟨h, -⟩; linarith),
      iff_of_false (by rw [e]; norm_num [MarketEvent.mk.injEq])
        (by rintro ⟨h, -⟩; linarith),
      iff_of_false (by rw [e]; norm_num [MarketEvent.mk.injEq])
        (by intro h; linarith)⟩
  rcases lt_or_le r 0.20 with c2 | c2
  · have hn1 : ¬ r < 0.10 := by linarith
    have e : drawEvent week r = ⟨"New Competitor", -15.0, -0.10, 0.25⟩ := by
      simp [drawEvent, hn1, c2]
    exact ⟨iff_of_false (by rw [e]; norm_num [MarketEvent.mk.injEq]) (by intro h; linarith),
      iff_of_true e ⟨c1, c2⟩,
      iff_of_false (by rw [e]; norm_num [MarketEvent.mk.injEq])
        (by rintro ⟨h, -⟩; linarith),
      iff_of_false (by rw [e]; norm_num [MarketEvent.mk.injEq])
        (by rintro ⟨h, -⟩; linarith),
      iff_of_false (by rw [e]; norm_num [MarketEvent.mk.injEq])
        (by intro h; linarith)⟩
  rcases lt_or_le r 0.30 with c3 | c3
  · have hn1 : ¬ r < 0.10 := by linarith
    have hn2 : ¬ r < 0.20 := by linarith
    have e : drawEvent week r = ⟨"Supply News (positive)", 5.0, 0.05, -0.05⟩ := by
      simp [drawEvent, hn1, hn2, c3]
    exact ⟨iff_of_false (by rw [e]; norm_num [MarketEvent.mk.injEq]) (by intro h; linarith),
      iff_of_false (by rw [e]; norm_num [MarketEvent.mk.injEq])
        (by rintro ⟨-, h⟩; linarith),
      iff_of_true e ⟨c2, c3⟩,
      iff_of_false (by rw [e]; norm_num [MarketEvent.mk.injEq])
        (by rintro ⟨h, -⟩; linarith),
      iff_of_false (by rw [e]; norm_num [MarketEvent.mk.injEq])
        (by intro h; linarith)⟩
  rcases lt_or_le r 0.40 with c4 | c4
  · have hn1 : ¬ r < 0.10 := by linarith
    have hn2 : ¬ r < 0.20 := by linarith
    have hn3 : ¬ r < 0.30 := by linarith
    have e : drawEvent week r = ⟨"Macro Slump", -10.0, -0.10, 0.15⟩ := by
      simp [drawEvent, hn1, hn2, hn3, c4]
    exact ⟨iff_of_false (by rw [e]; norm_num [MarketEvent.mk.injEq]) (by intro h; linarith),
      iff_of_false (by rw [e]; norm_num [MarketEvent.mk.injEq])
        (by rintro ⟨-, h⟩; linarith),
      iff_of_false (by rw [e]; norm_num [MarketEvent.mk.injEq])
        (by rintro ⟨-, h⟩; linarith),
      iff_of_true e ⟨c3, c4⟩,
      iff_of_false (by rw [e]; norm_num [MarketEvent.mk.injEq])
        (by intro h; linarith)⟩
  · have hn1 : ¬ r < 0.10 := by linarith
    have hn2 : ¬ r < 0.20 := by linarith
    have hn3 : ¬ r < 0.30 := by linarith
    have hn4 : ¬ r < 0.40 := by linarith
    have e : drawEvent week r = ⟨"Nothing Special", 0.0, 0.0, 0.0⟩ := by
      simp [drawEvent, hn1, hn2, hn3, hn4]
    exact ⟨iff_of_false (by rw [e]; norm_num [MarketEvent.mk.injEq]) (by intro h; linarith),
      iff_of_false (by rw [e]; norm_num [MarketEvent.mk.injEq])
        (by rintro ⟨-, h⟩; linarith),
      iff_of_false (by rw [e]; norm_num [MarketEvent.mk.injEq])
        (by rintro ⟨-, h⟩; linarith),
      iff_of_false (by rw [e]; norm_num [MarketEvent.mk.injEq])
        (by rintro ⟨-, h⟩; linarith),
      iff_of_true e c4⟩

/-- C7 witness: the draw at `r = 1/2` falls in the 60% band and yields the
neutral event. -/
theorem drawEvent_partition_witness :
    (0:ℝ) ≤ 0.5 ∧ (0.5:ℝ) < 1 ∧
      drawEvent 1 0.5 = ⟨"Nothing Special", 0.0, 0.0, 0.0⟩ :=
  ⟨by norm_num, by norm_num,
    ((drawEvent_partition 1 0.5 (by norm_num) (by norm_num)).2.2.2.2).mpr (by norm_num)⟩

/-! ### C8: the proxy update -/

/-- C8: the proxy update averages exactly the most recent `min 3 n` sale
counts (`n` the history length), blends `0.7·proxy + 0.3·mean`, adds the
noise draw, and floors at zero; the result is non-negative for all inputs,
in particular for non-negative proxy and sale counts. -/
theorem proxyUpdate_spec (soldHistory : List ℤ) (baseProxy noise : ℝ)
    (h : soldHistory ≠ []) :
    (soldHistory.drop (soldHistory.length - 3)).length = min 3 soldHistory.length ∧
      proxyUpdate soldHistory baseProxy noise
        = max 0 (0.70 * baseProxy
            + 0.30 * ((((soldHistory.drop (soldHistory.length - 3)).map
                  fun z => (z:ℝ)).sum)
                / (((soldHistory.drop (soldHistory.length - 3)).length : ℕ) : ℝ))
            + noise) ∧
      0 ≤ proxyUpdate soldHistory baseProxy noise := by
  refine ⟨?_, ?_, ?_⟩
  · rw [List.length_drop]
    omega
  · simp only [proxyUpdate, List.length_drop]
    norm_num
  · simp only [proxyUpdate]
    exact le_trans (by norm_num) (le_max_left _ _)

/-- C8 witness: a one-week history with 80 units sold. -/
theorem proxyUpdate_spec_witness :
    ([(80:ℤ)] : List ℤ) ≠ [] ∧ 0 ≤ proxyUpdate [(80:ℤ)] 50 0 :=
  ⟨by simp, (proxyUpdate_spec [(80:ℤ)] 50 0 (by simp)).2.2⟩

/-! ### C9: a neutral event is a no-op -/

/-- C9: `predict` with both event multipliers zero coincides with the
linear combination with the `(1+shock)` multipliers omitted, and
`realizeDemand` under an event whose three shocks are all zero coincides
(for the same noise draw) with the computation with the shock terms
omitted. -/
theorem neutral_event_identity (w : Weights) (m : Market) (price ad baseProxy : ℝ)
    (inv : ℤ) (noise : ℝ) (ev : MarketEvent)
    (hb : ev.baseShock = 0) (ha : ev.adShock = 0) (hp : ev.priceShock = 0) :
    AIAdvisor.predict w price ad baseProxy inv 0 0
        = predictShockFree w price ad baseProxy inv ∧
      m.realizeDemand price ad ev inv noise
        = realizeDemandShockFree m price ad inv noise := by
  constructor
  · simp only [AIAdvisor.predict, predictShockFree]
    ring_nf
  · simp only [Market.realizeDemand, realizeDemandShockFree, hb, ha, hp]
    ring_nf

/-- C9 witness: the literal "Nothing Special" event at the scenario
inputs. -/
theorem neutral_event_identity_witness :
    (⟨"Nothing Special", 0.0, 0.0, 0.0⟩ : MarketEvent).baseShock = 0 ∧
      (AIAdvisor.predict priorWeights 20 1000 50 60 0 0
          = predictShockFree priorWeights 20 1000 50 60 ∧
        Market.realizeDemand {} 20 1000 ⟨"Nothing Special", 0.0, 0.0, 0.0⟩ 60 0
          = realizeDemandShockFree {} 20 1000 60 0) :=
  ⟨by norm_num,
    neutral_event_identity priorWeights {} 20 1000 50 60 0
      ⟨"Nothing Special", 0.0, 0.0, 0.0⟩ (by norm_num) (by norm_num) (by norm_num)⟩

/-! ### C10: the inventory feature passed to `learn` -/

/-- C10: in every period of the main loop, the `inventoryAvail` argument
passed to `learn` (`co.inventory + sold` after the sale) equals the
availability passed to `realizeDemand` (inventory after production,
before sales), i.e. end-of-period inventory plus sold units. -/
theorem learn_inventory_is_presale (c : Company) (w : Weights) (m : Market)
    (chosen : Plan) (ev : MarketEvent) (baseProxy demandNoise : ℝ) :
    (weekStep c w m chosen ev baseProxy demandNoise).learnInvArg
        = (weekStep c w m chosen ev baseProxy demandNoise).realizeInvArg ∧
      (weekStep c w m chosen ev baseProxy demandNoise).learnInvArg
        = c.inventory + chosen.production ∧
      (weekStep c w m chosen ev baseProxy demandNoise).learnInvArg
        = (weekStep c w m chosen ev baseProxy demandNoise).inventoryEnd
            + (weekStep c w m chosen ev baseProxy demandNoise).soldUnits := by
  refine ⟨?_, ?_, ?_⟩ <;> simp only [weekStep] <;> ring

/-! ### C5 and C6: the grid search -/

/-- Every enumerated grid point satisfies the documented grid bounds. -/
lemma mem_gridPlans_bounds (q : Plan) (hq : q ∈ AIAdvisor.gridPlans) :
    9 ≤ q.price ∧ q.price ≤ 40 ∧ 0 ≤ q.adSpend ∧ q.adSpend ≤ 8000 ∧
      0 ≤ q.production ∧ q.production ≤ 120 := by
  simp only [AIAdvisor.gridPlans, List.mem_flatMap, List.mem_map] at hq
  obtain ⟨price, hprice, ad, had, prod, hprod, rfl⟩ := hq
  simp only [AIAdvisor.gridPrices, List.mem_map, List.mem_range] at hprice
  obtain ⟨i, hi, rfl⟩ := hprice
  simp only [AIAdvisor.gridAds, List.mem_map, List.mem_range] at had
  obtain ⟨j, hj, rfl⟩ := had
  simp only [AIAdvisor.gridProds, List.mem_map, List.mem_range] at hprod
  obtain ⟨k, hk, rfl⟩ := hprod
  have hi31 : (i : ℝ) ≤ 31 := by exact_mod_cast (by omega : i ≤ 31)
  have hj16 : (j : ℝ) ≤ 16 := by exact_mod_cast (by omega : j ≤ 16)
  have hk12 : (k : ℤ) ≤ 12 := by exact_mod_cast (by omega : k ≤ 12)
  have hi0 : (0 : ℝ) ≤ (i : ℝ) := Nat.cast_nonneg i
  have hj0 : (0 : ℝ) ≤ (j : ℝ) := Nat.cast_nonneg j
  have hk0 : (0 : ℤ) ≤ (k : ℤ) := Int.natCast_nonneg k
  dsimp only
  refine ⟨by linarith, by linarith, by linarith, by linarith, by linarith, by linarith⟩

/-- The best-so-far fold preserves any property holding of the incumbent
and of every listed candidate. -/
lemma foldl_bestStep_preserves (w : Weights) (c : Company) (bp am pm : ℝ)
    (P : Plan → Prop) :
    ∀ (l : List Plan) (acc : Plan × ℝ), P acc.1 → (∀ q ∈ l, P q) →
      P ((l.foldl (AIAdvisor.bestStep w c bp am pm) acc).1)
  | [], _, hacc, _ => hacc
  | p :: t, acc, hacc, hall => by
    simp only [List.foldl_cons]
    apply foldl_bestStep_preserves w c bp am pm P t
    · simp only [AIAdvisor.bestStep]
      split
      · exact hall p (List.mem_cons_self p t)
      · exact hacc
    · exact fun q hq => hall q (List.mem_cons_of_mem p hq)

/-- C5: for every advisor state, company state, proxy and event
multipliers, the plan returned by `suggest` lies inside the search grid:
price in `[9,40]`, ad spend in `[0,8000]`, production in `[0,120]`. -/
theorem suggest_in_grid (w : Weights) (c : Company) (bp am pm : ℝ) :
    9 ≤ (AIAdvisor.suggest w c bp am pm).price ∧
      (AIAdvisor.suggest w c bp am pm).price ≤ 40 ∧
      0 ≤ (AIAdvisor.suggest w c bp am pm).adSpend ∧
      (AIAdvisor.suggest w c bp am pm).adSpend ≤ 8000 ∧
      0 ≤ (AIAdvisor.suggest w c bp am pm).production ∧
      (AIAdvisor.suggest w c bp am pm).production ≤ 120 := by
  simp only [AIAdvisor.suggest]
  apply foldl_bestStep_preserves w c bp am pm
    (fun q => 9 ≤ q.price ∧ q.price ≤ 40 ∧ 0 ≤ q.adSpend ∧ q.adSpend ≤ 8000 ∧
      0 ≤ q.production ∧ q.production ≤ 120)
  · exact ⟨by norm_num, by norm_num, by norm_num, by norm_num, by norm_num, by norm_num⟩
  · exact fun q hq => mem_gridPlans_bounds q hq

/-- If no listed candidate strictly beats the incumbent profit, the fold
keeps the incumbent unchanged (equal profit never replaces it). -/
lemma foldl_bestStep_keep (w : Weights) (c : Company) (bp am pm : ℝ) :
    ∀ (l : List Plan) (b : Plan) (v : ℝ),
      (∀ q ∈ l, AIAdvisor.planProfit w c bp am pm q ≤ v) →
      l.foldl (AIAdvisor.bestStep w c bp am pm) (b, v) = (b, v)
  | [], _, _, _ => rfl
  | p :: t, b, v, hall => by
    simp only [List.foldl_cons]
    have hp : ¬ (AIAdvisor.planProfit w c bp am pm p > v) :=
      not_lt.mpr (hall p (List.mem_cons_self p t))
    simp only [AIAdvisor.bestStep, if_neg hp]
    exact foldl_bestStep_keep w c bp am pm t b v
      (fun q hq => hall q (List.mem_cons_of_mem p hq))

/-- The best profit seen so far stays below any bound dominating the
initial value and every listed candidate. -/
lemma foldl_bestStep_lt (w : Weights) (c : Company) (bp am pm M : ℝ) :
    ∀ (l : List Plan) (acc : Plan × ℝ), acc.2 < M →
      (∀ q ∈ l, AIAdvisor.planProfit w c bp am pm q < M) →
      (l.foldl (AIAdvisor.bestStep w c bp am pm) acc).2 < M
  | [], _, hacc, _ => hacc
  | p :: t, acc, hacc, hall => by
    simp only [List.foldl_cons]
    apply foldl_bestStep_lt w c bp am pm M t
    · simp only [AIAdvisor.bestStep]
      split
      · exact hall p (List.mem_cons_self p t)
      · exact hacc
    · exact fun q hq => hall q (List.mem_cons_of_mem p hq)

/-- C6: first-found wins ties.  If the grid enumeration splits as
`l₁ ++ p :: l₂` where every point before `p` has strictly smaller profit
and no point after `p` has strictly greater profit (later points of equal,
bit-identical profit allowed), then `suggest` returns `p`: a later point
with equal profit never replaces the incumbent, so the first point in
enumeration order (price, then ad spend, then production ascending) is
returned. -/
theorem suggest_first_of_ties (w : Weights) (c : Company) (bp am pm : ℝ)
    (p : Plan) (l₁ l₂ : List Plan)
    (hsplit : AIAdvisor.gridPlans = l₁ ++ p :: l₂)
    (hv : -1e18 < AIAdvisor.planProfit w c bp am pm p)
    (hbefore : ∀ q ∈ l₁, AIAdvisor.planProfit w c bp am pm q
      < AIAdvisor.planProfit w c bp am pm p)
    (hrest : ∀ q ∈ l₂, AIAdvisor.planProfit w c bp am pm q
      ≤ AIAdvisor.planProfit w c bp am pm p) :
    AIAdvisor.suggest w c bp am pm = p := by
  simp only [AIAdvisor.suggest, hsplit]
  rw [List.foldl_append, List.foldl_cons]
  have hA2 : (l₁.foldl (AIAdvisor.bestStep w c bp am pm) (⟨20, 1000, 50⟩, -1e18)).2
      < AIAdvisor.planProfit w c bp am pm p :=
    foldl_bestStep_lt w c bp am pm _ l₁ _ hv hbefore
  have hb : AIAdvisor.bestStep w c bp am pm
      (l₁.foldl (AIAdvisor.bestStep w c bp am pm) (⟨20, 1000, 50⟩, -1e18)) p
      = (p, AIAdvisor.planProfit w c bp am pm p) := by
    simp only [AIAdvisor.bestStep]
    rw [if_pos hA2]
  rw [hb, foldl_bestStep_keep w c bp am pm l₂ p _ hrest]

/-- Under all-zero weights the predicted demand is zero, so a grid point's
profit is just its negated cost (price-independent). -/
lemma planProfit_zeroWeights (q : Plan) (hq : (0:ℤ) ≤ 40 + q.production) :
    AIAdvisor.planProfit zeroWeights baseCompany 0 0 0 q
      = -((q.production : ℝ) * 8 + q.adSpend + 1200) := by
  have hq' : (0:ℝ) ≤ 40 + (q.production : ℝ) := by exact_mod_cast hq
  simp only [AIAdvisor.planProfit, AIAdvisor.predict, zeroWeights, baseCompany]
  norm_num
  rw [min_eq_left hq']
  ring

/-- The first enumerated grid point is price 9, ad spend 0, production 0. -/
lemma gridPlans_head :
    AIAdvisor.gridPlans = (⟨9, 0, 0⟩ : Plan) :: AIAdvisor.gridPlans.tail := by
  simp only [AIAdvisor.gridPlans, AIAdvisor.gridPrices, AIAdvisor.gridAds,
    AIAdvisor.gridProds]
  rw [show (32:ℕ) = 31 + 1 by norm_num, show (17:ℕ) = 16 + 1 by norm_num,
    show (13:ℕ) = 12 + 1 by norm_num]
  rw [List.range_succ_eq_map 31, List.range_succ_eq_map 16, List.range_succ_eq_map 12]
  simp only [List.map_cons, List.flatMap_cons, List.cons_append, List.tail_cons]
  rw [List.cons.injEq]
  exact ⟨by norm_num [Plan.mk.injEq], rfl⟩

/-- C6 witness: with all-zero weights, profit is price-independent, so the
grid points at prices 9, 10, ..., 40 with zero ad spend and production all
tie at the maximal profit −1200; `suggest` returns the first of them,
price 9. -/
theorem suggest_first_of_ties_witness :
    AIAdvisor.suggest zeroWeights baseCompany 0 0 0 = (⟨9, 0, 0⟩ : Plan) := by
  have hsplit : AIAdvisor.gridPlans
      = [] ++ (⟨9, 0, 0⟩ : Plan) :: AIAdvisor.gridPlans.tail := by
    rw [List.nil_append]
    exact gridPlans_head
  have hprof : AIAdvisor.planProfit zeroWeights baseCompany 0 0 0 (⟨9, 0, 0⟩ : Plan)
      = -1200 := by
    rw [planProfit_zeroWeights (⟨9, 0, 0⟩ : Plan) (by norm_num)]
    norm_num
  apply suggest_first_of_ties zeroWeights baseCompany 0 0 0 (⟨9, 0, 0⟩ : Plan) []
    AIAdvisor.gridPlans.tail hsplit
  · rw [hprof]
    norm_num
  · intro q hq
    simp at hq
  · intro q hq
    have hmem : q ∈ AIAdvisor.gridPlans := by
      rw [gridPlans_head]
      exact List.mem_cons_of_mem _ hq
    obtain ⟨-, -, had, -, hprod, -⟩ := mem_gridPlans_bounds q hmem
    have h40 : (0:ℤ) ≤ 40 + q.production := by linarith
    rw [planProfit_zeroWeights q h40, hprof]
    have hpr : (0:ℝ) ≤ (q.production : ℝ) := by exact_mod_cast hprod
    linarith

end AITycoon
